import Mathlib

/-!
Verification of the claim-reduction core of the binius proving engine:
the composite oracle data model (`oracle/composite.rs`), the greedy
evalcheck round driver (`protocols/greedy_evalcheck/prove.rs`) and the
grand-product witness interface exercised by `benches/prodcheck.rs`.

Shallow embedding: the Rust functions of the reviewed source files are
translated into executable Lean definitions; collaborating components that
are declared outside the reviewed files (the oracle variants, the
composition trait, the evalcheck prover state machine, the sumcheck
reduction engine, the grand-product witness internals) are modelled from
the specification's interface description and are marked as such in their
doc comments.
-/

set_option maxHeartbeats 1000000

namespace Binius

/-- Modelled from the spec: `MultilinearPolyOracle` is declared outside the
reviewed source files.  Per the data model every variant carries an identity,
`n_vars`, and a derivable `binary_tower_level`; only this interface is used by
`CompositePolyOracle`. -/
structure MultilinearPolyOracle where
  id : Nat
  n_vars : Nat
  binary_tower_level : Nat
  deriving DecidableEq

/-- Modelled from the spec: the `CompositionPoly` trait is declared outside the
reviewed source files.  The composite oracle uses only its declared arity
(`n_vars`), its polynomial `degree`, and its intrinsic `binary_tower_level`. -/
structure CompositionPoly where
  n_vars : Nat
  degree : Nat
  binary_tower_level : Nat
  deriving DecidableEq

/-- Modelled from the spec: the oracle error type is declared outside the
reviewed source files; `CompositePolyOracle::new` uses the constructors
`CompositionMismatch` and `IncorrectNumberOfVariables { expected }`. -/
inductive OracleError where
  | compositionMismatch
  | incorrectNumberOfVariables (expected : Nat)
  deriving DecidableEq

/-- The data of `CompositePolyOracle` (composite.rs lines 11-16). -/
structure CompositePolyOracle where
  n_vars : Nat
  inner : List MultilinearPolyOracle
  composition : CompositionPoly
  deriving DecidableEq

/-- The per-inner-oracle check loop of `CompositePolyOracle::new`
(composite.rs lines 27-31): the first inner oracle whose `n_vars` differs from
the declared one aborts construction with `IncorrectNumberOfVariables`. -/
def checkInnerVars (n_vars : Nat) : List MultilinearPolyOracle → Except OracleError Unit
  | [] => .ok ()
  | poly :: rest =>
    if poly.n_vars ≠ n_vars then .error (.incorrectNumberOfVariables n_vars)
    else checkInnerVars n_vars rest

/-- Rust `CompositePolyOracle::new` (composite.rs lines 19-37): the arity check
precedes the per-inner variable-count loop; on success all fields are stored. -/
def CompositePolyOracle.new (n_vars : Nat) (inner : List MultilinearPolyOracle)
    (composition : CompositionPoly) : Except OracleError CompositePolyOracle :=
  if inner.length ≠ composition.n_vars then
    .error .compositionMismatch
  else
    match checkInnerVars n_vars inner with
    | .error e => .error e
    | .ok _ => .ok { n_vars := n_vars, inner := inner, composition := composition }

/-- Rust `max_individual_degree` (composite.rs lines 39-42). -/
def CompositePolyOracle.max_individual_degree (o : CompositePolyOracle) : Nat :=
  o.composition.degree

/-- Rust `n_multilinears` (composite.rs lines 44-46). -/
def CompositePolyOracle.n_multilinears (o : CompositePolyOracle) : Nat :=
  o.composition.n_vars

/-- Rust `binary_tower_level` (composite.rs lines 48-56): the composition's own
intrinsic level `max`-ed with the maximum of the inner oracles' levels,
`unwrap_or(0)` when there are no inner oracles. -/
def CompositePolyOracle.binary_tower_level (o : CompositePolyOracle) : Nat :=
  Nat.max o.composition.binary_tower_level
    ((o.inner.map MultilinearPolyOracle.binary_tower_level).max?.getD 0)

theorem checkInnerVars_ok_iff (n : Nat) (l : List MultilinearPolyOracle) :
    checkInnerVars n l = .ok () ↔ ∀ p ∈ l, p.n_vars = n := by
  induction l with
  | nil => simp [checkInnerVars]
  | cons p rest ih =>
    by_cases h : p.n_vars = n
    · simp [checkInnerVars, h, ih]
    · simp [checkInnerVars, h]

theorem checkInnerVars_error_of_bad (n : Nat) (l : List MultilinearPolyOracle)
    (h : ∃ p ∈ l, p.n_vars ≠ n) :
    checkInnerVars n l = .error (.incorrectNumberOfVariables n) := by
  induction l with
  | nil => simp at h
  | cons p rest ih =>
    by_cases hp : p.n_vars = n
    · have hrest : ∃ q ∈ rest, q.n_vars ≠ n := by
        rcases h with ⟨q, hq, hqn⟩
        rcases List.mem_cons.mp hq with rfl | hq
        · exact absurd hp hqn
        · exact ⟨q, hq, hqn⟩
      simpa [checkInnerVars, hp] using ih hrest
    · simp [checkInnerVars, hp]

/-- C1: `CompositePolyOracle::new(n_vars, inner, composition)` succeeds — and
returns the fully-formed value holding exactly the given fields — if and only
if `inner.len()` equals the composition's declared arity and every inner
oracle's `n_vars` equals the declared `n_vars`; when the arity differs it
fails with `CompositionMismatch`, and when the arity matches but some inner
oracle's variable count differs it fails with `IncorrectNumberOfVariables`
(so in either failure case no value is constructed). -/
theorem composite_new_iff (n_vars : Nat) (inner : List MultilinearPolyOracle)
    (c : CompositionPoly) :
    (CompositePolyOracle.new n_vars inner c =
        .ok { n_vars := n_vars, inner := inner, composition := c } ↔
      inner.length = c.n_vars ∧ ∀ p ∈ inner, p.n_vars = n_vars)
    ∧ (inner.length ≠ c.n_vars →
        CompositePolyOracle.new n_vars inner c = .error .compositionMismatch)
    ∧ (inner.length = c.n_vars → (∃ p ∈ inner, p.n_vars ≠ n_vars) →
        CompositePolyOracle.new n_vars inner c =
          .error (.incorrectNumberOfVariables n_vars)) := by
  refine ⟨⟨?_, ?_⟩, ?_, ?_⟩
  · intro h
    unfold CompositePolyOracle.new at h
    by_cases hl : inner.length = c.n_vars
    · refine ⟨hl, ?_⟩
      by_contra hv
      push_neg at hv
      rw [checkInnerVars_error_of_bad n_vars inner hv] at h
      simp [hl] at h
    · simp [hl] at h
  · rintro ⟨hl, hv⟩
    unfold CompositePolyOracle.new
    rw [(checkInnerVars_ok_iff n_vars inner).mpr hv]
    simp [hl]
  · intro hl
    unfold CompositePolyOracle.new
    simp [hl]
  · intro hl hv
    unfold CompositePolyOracle.new
    rw [checkInnerVars_error_of_bad n_vars inner hv]
    simp [hl]

theorem foldl_max_eq_max_foldr (a : Nat) (l : List Nat) :
    l.foldl Nat.max a = Nat.max a (l.foldr Nat.max 0) := by
  induction l generalizing a with
  | nil => simp
  | cons b bs ih =>
    simp only [List.foldl_cons, List.foldr_cons, ih (Nat.max a b)]
    exact Nat.max_assoc a b _

theorem max?_getD_zero_eq_foldr (l : List Nat) :
    l.max?.getD 0 = l.foldr Nat.max 0 := by
  cases l with
  | nil => rfl
  | cons a as =>
    have h : (a :: as).max? = some (as.foldl Nat.max a) := rfl
    rw [h, Option.getD_some, foldl_max_eq_max_foldr, List.foldr_cons]

theorem mem_le_foldr_max {x : Nat} {l : List Nat} (h : x ∈ l) :
    x ≤ l.foldr Nat.max 0 := by
  induction l with
  | nil => simp at h
  | cons a as ih =>
    rcases List.mem_cons.mp h with rfl | h
    · rw [List.foldr_cons]; exact Nat.le_max_left _ _
    · rw [List.foldr_cons]
      exact Nat.le_trans (ih h) (Nat.le_max_right _ _)

/-- C4: for every `CompositePolyOracle`, `binary_tower_level()` equals the
maximum of the composition's own intrinsic tower level and all inner oracles'
tower levels; in particular it is at least the composition's intrinsic level
and at least every inner oracle's level, never less. -/
theorem composite_binary_tower_level_max (o : CompositePolyOracle) :
    o.binary_tower_level =
      Nat.max o.composition.binary_tower_level
        ((o.inner.map MultilinearPolyOracle.binary_tower_level).foldr Nat.max 0)
    ∧ o.composition.binary_tower_level ≤ o.binary_tower_level
    ∧ ∀ p ∈ o.inner, p.binary_tower_level ≤ o.binary_tower_level := by
  have hdef : o.binary_tower_level =
      Nat.max o.composition.binary_tower_level
        ((o.inner.map MultilinearPolyOracle.binary_tower_level).foldr Nat.max 0) := by
    unfold CompositePolyOracle.binary_tower_level
    rw [max?_getD_zero_eq_foldr]
  refine ⟨hdef, ?_, ?_⟩
  · rw [hdef]; exact Nat.le_max_left _ _
  · intro p hp
    have hmem : p.binary_tower_level ∈
        o.inner.map MultilinearPolyOracle.binary_tower_level :=
      List.mem_map_of_mem _ hp
    rw [hdef]
    exact Nat.le_trans (mem_le_foldr_max hmem) (Nat.le_max_right _ _)

/-- C9: for every successfully constructed `CompositePolyOracle`,
`max_individual_degree()` equals the composition's polynomial degree and
`n_multilinears()` equals the composition's declared arity; both are pure
derived queries of the stored composition. -/
theorem composite_degree_arity_queries (n_vars : Nat)
    (inner : List MultilinearPolyOracle) (c : CompositionPoly)
    (o : CompositePolyOracle)
    (h : CompositePolyOracle.new n_vars inner c = .ok o) :
    o.max_individual_degree = c.degree ∧ o.n_multilinears = c.n_vars := by
  unfold CompositePolyOracle.new at h
  by_cases hl : inner.length = c.n_vars
  · simp only [hl, ne_eq, not_true_eq_false, if_false, ite_false] at h
    cases hc : checkInnerVars n_vars inner with
    | error e => rw [hc] at h; simp at h
    | ok u =>
      rw [hc] at h
      cases h
      exact ⟨rfl, rfl⟩
  · simp [hl] at h

/-- Witness for C9: a concrete composite over one inner oracle with two
variables; the composition declares arity 1, degree 3 and intrinsic level 4. -/
theorem composite_degree_arity_queries_witness :
    CompositePolyOracle.new 2 [⟨0, 2, 1⟩] ⟨1, 3, 4⟩ =
        .ok { n_vars := 2, inner := [⟨0, 2, 1⟩], composition := ⟨1, 3, 4⟩ } ∧
      ({ n_vars := 2, inner := [⟨0, 2, 1⟩], composition := ⟨1, 3, 4⟩ } :
          CompositePolyOracle).max_individual_degree = (⟨1, 3, 4⟩ : CompositionPoly).degree ∧
      ({ n_vars := 2, inner := [⟨0, 2, 1⟩], composition := ⟨1, 3, 4⟩ } :
          CompositePolyOracle).n_multilinears = (⟨1, 3, 4⟩ : CompositionPoly).n_vars :=
  ⟨rfl, composite_degree_arity_queries 2 [⟨0, 2, 1⟩] ⟨1, 3, 4⟩ _ rfl⟩

/-- C10: when a construction request violates both invariants at once (the
inner count differs from the composition's arity and some inner oracle's
`n_vars` differs from the declared one), `CompositePolyOracle::new` returns
`CompositionMismatch`, because the arity check runs before the per-inner
variable-count loop. -/
theorem composite_new_arity_check_first (n_vars : Nat)
    (inner : List MultilinearPolyOracle) (c : CompositionPoly)
    (h₁ : inner.length ≠ c.n_vars)
    (h₂ : ∃ p ∈ inner, p.n_vars ≠ n_vars) :
    CompositePolyOracle.new n_vars inner c = .error .compositionMismatch := by
  unfold CompositePolyOracle.new
  simp [h₁]

/-- Witness for C10: one inner oracle with five variables against a declared
`n_vars` of 2 (variable-count violation) and a composition of arity 3
(arity violation); the arity error wins. -/
theorem composite_new_arity_check_first_witness :
    CompositePolyOracle.new 2 [⟨0, 5, 1⟩] ⟨3, 0, 0⟩ = .error .compositionMismatch :=
  composite_new_arity_check_first 2 [⟨0, 5, 1⟩] ⟨3, 0, 0⟩ (by decide)
    ⟨⟨0, 5, 1⟩, by decide⟩

/-- Modelled from the spec: the grand-product error type lives outside the
reviewed source files; `GrandProductWitness::new` fails with a shape error
carrying expected and actual lengths when `values.len() != 2^n_vars`. -/
inductive GpaError where
  | incorrectWitnessLength (expected actual : Nat)
  deriving DecidableEq

/-- Modelled from the spec: one step of the binary-tree layering of the
grand-product witness — adjacent pairs of cells are multiplied, so blocks of
size `2^k` become blocks of size `2^(k+1)`. -/
def pairProducts {M : Type} [Mul M] : List M → List M
  | a :: b :: rest => (a * b) :: pairProducts rest
  | _ => []

/-- Modelled from the spec: the layer of `2^k`-sized partial products, obtained
by iterating `pairProducts` `k` times on the raw value table. -/
def productLayer {M : Type} [Mul M] : Nat → List M → List M
  | 0, values => values
  | k + 1, values => productLayer k (pairProducts values)

/-- Modelled from the spec: all precomputed layers of the grand-product
witness, from the raw values (layer 0) up to the top layer (layer `n_vars`,
a single cell holding the full product). -/
def buildLayers {M : Type} [Mul M] : Nat → List M → List (List M)
  | 0, values => [values]
  | n + 1, values => values :: buildLayers n (pairProducts values)

/-- Modelled from the spec: `GrandProductWitness` holds the full hypercube of
values whose product is claimed, plus the cached partial-product layers used by
the GKR layering. -/
structure GrandProductWitness (M : Type) where
  n_vars : Nat
  values : List M
  layers : List (List M)
  deriving DecidableEq

/-- Modelled from the spec: `GrandProductWitness::new(n_vars, values)`
validates `values.len() == 2^n_vars` and fails with a shape error otherwise;
on success it precomputes the layered partial products. -/
def GrandProductWitness.new {M : Type} [Mul M] (n_vars : Nat) (values : List M) :
    Except GpaError (GrandProductWitness M) :=
  if values.length ≠ 2 ^ n_vars then
    .error (.incorrectWitnessLength (2 ^ n_vars) values.length)
  else
    .ok { n_vars := n_vars, values := values, layers := buildLayers n_vars values }

/-- Modelled from the spec: `grand_product_evaluation()` reads the top layer —
the single cell holding the full product — a pure query of the precomputed
layers. -/
def GrandProductWitness.grand_product_evaluation {M : Type} [One M]
    (w : GrandProductWitness M) : M :=
  (w.layers.getLast?.getD []).headD 1

theorem pairProducts_length {M : Type} [Mul M] : ∀ l : List M,
    (pairProducts l).length = l.length / 2
  | [] => by simp [pairProducts]
  | [a] => by simp [pairProducts]
  | a :: b :: rest => by
    have ih := pairProducts_length rest
    simp only [pairProducts, List.length_cons, ih]
    omega

theorem pairProducts_prod {M : Type} [Monoid M] : ∀ l : List M,
    l.length % 2 = 0 → (pairProducts l).prod = l.prod
  | [], _ => by simp [pairProducts]
  | [a], h => by simp at h
  | a :: b :: rest, h => by
    have hrest : rest.length % 2 = 0 := by
      simp only [List.length_cons] at h
      omega
    have ih := pairProducts_prod rest hrest
    simp only [pairProducts, List.prod_cons, ih, mul_assoc]

theorem productLayer_top {M : Type} [Monoid M] : ∀ (n : Nat) (values : List M),
    values.length = 2 ^ n → productLayer n values = [values.prod]
  | 0, values, h => by
    rw [pow_zero] at h
    rcases List.length_eq_one.mp h with ⟨a, rfl⟩
    simp [productLayer]
  | n + 1, values, h => by
    have hlen : (pairProducts values).length = 2 ^ n := by
      rw [pairProducts_length, h, pow_succ]
      omega
    have heven : values.length % 2 = 0 := by
      rw [h, pow_succ]; omega
    have ih := productLayer_top n (pairProducts values) hlen
    simp only [productLayer, ih, pairProducts_prod values heven]

theorem buildLayers_ne_nil {M : Type} [Mul M] (n : Nat) (values : List M) :
    buildLayers n values ≠ [] := by
  cases n <;> simp [buildLayers]

theorem buildLayers_getLast {M : Type} [Mul M] : ∀ (n : Nat) (values : List M),
    (buildLayers n values).getLast? = some (productLayer n values)
  | 0, values => by simp [buildLayers, productLayer]
  | n + 1, values => by
    have ih := buildLayers_getLast n (pairProducts values)
    rw [buildLayers, List.getLast?_cons, ih]
    simp [Option.or, productLayer]

/-- C8: for every value table `W` of size `2^n`, `GrandProductWitness::new(n, W)`
succeeds, and `grand_product_evaluation()` on the constructed witness returns
exactly the product of all `2^n` entries of `W` — a pure query of the
precomputed top layer. -/
theorem grand_product_evaluation_correct {M : Type} [Monoid M] (n : Nat)
    (values : List M) (h : values.length = 2 ^ n) :
    ∃ w : GrandProductWitness M, GrandProductWitness.new n values = .ok w ∧
      w.grand_product_evaluation = values.prod := by
  refine ⟨{ n_vars := n, values := values, layers := buildLayers n values }, ?_, ?_⟩
  · unfold GrandProductWitness.new
    simp [h]
  · unfold GrandProductWitness.grand_product_evaluation
    simp only [buildLayers_getLast n values, Option.getD_some, productLayer_top n values h,
      List.headD_cons]

/-- Witness for C8: the table `[2, 3, 4, 5]` of size `2^2` over the
multiplicative monoid of natural numbers; the grand product is 120. -/
theorem grand_product_evaluation_correct_witness :
    ([2, 3, 4, 5] : List Nat).length = 2 ^ 2 ∧
      ∃ w : GrandProductWitness Nat, GrandProductWitness.new 2 [2, 3, 4, 5] = .ok w ∧
        w.grand_product_evaluation = ([2, 3, 4, 5] : List Nat).prod :=
  ⟨by decide, grand_product_evaluation_correct 2 [2, 3, 4, 5] (by decide)⟩

abbrev OracleId := Nat

/-- Modelled from the spec: `MultilinearOracleSet` and the oracle variants are
declared outside the reviewed source files.  For the driver, an oracle is
either a committed leaf or a virtual node whose decomposition enqueues a
bivariate-sumcheck constraint or an MLE-check constraint over its inner
(child) oracles. -/
inductive OracleVariant where
  | committed
  | virtualBivariate (inner : List OracleId)
  | virtualMlecheck (inner : List OracleId)
  deriving DecidableEq

/-- The child oracle handles referenced by a variant (empty for a leaf). -/
def OracleVariant.innerIds : OracleVariant → List OracleId
  | .committed => []
  | .virtualBivariate inner => inner
  | .virtualMlecheck inner => inner

/-- Modelled from the spec: one oracle record of the arena, carrying its
variable count and its variant. -/
structure OracleEntry where
  n_vars : Nat
  variant : OracleVariant
  deriving DecidableEq

/-- Modelled from the spec: the Oracle Set is an arena of oracle records
indexed by small integer handles. -/
abbrev OracleSet := List OracleEntry

/-- Fiat-Shamir transcript, abstracted to the sequence of field elements
written so far (the driver only threads it through). -/
abbrev Transcript (F : Type) := List F

/-- The `EvalcheckMultilinearClaim` of the spec data model: an asserted evaluation of
one oracle at one point. -/
structure EvalcheckMultilinearClaim (F : Type) where
  oracle_id : OracleId
  evaluation_point : List F
  claimed_value : F
  deriving DecidableEq

/-- Modelled from the spec: a batch of polynomial-identity constraints is
abstracted by the handles of its constituent oracles — the oracles whose
evaluation claims a sumcheck reduction of the batch produces. -/
structure ConstraintSet where
  oracle_ids : List OracleId
  deriving DecidableEq

/-- The `ConstraintSetEqIndPoint` of the spec data model: an MLE-check unit of work,
a constraint batch tagged with its equality-indicator binding point. -/
structure ConstraintSetEqIndPoint (F : Type) where
  eq_ind_challenges : List F
  constraint_set : ConstraintSet
  deriving DecidableEq

/-- Modelled from the spec: `MemoizedData` is a per-session cache keyed by
(oracle identity, evaluation point); the driver only stores and threads it. -/
abbrev MemoizedData (F : Type) := List (OracleId × List F)

/-- Modelled from the spec: the driver's error type; shape errors from the
evalcheck prover and protocol errors from the sumcheck reductions. -/
inductive DriverError where
  | oracleNotFound (id : OracleId)
  | incorrectNumberOfVariables (expected : Nat)
  | subproofFailure (code : Nat)
  deriving DecidableEq

/-- Modelled from the spec: the state of the `EvalcheckProver` state machine —
the oracle set, the collected committed-leaf claims, the two pending
constraint queues, and the memoized data cache. -/
structure EvalcheckProver (F : Type) where
  oracles : OracleSet
  committed_eval_claims : List (EvalcheckMultilinearClaim F)
  new_bivariate_sumchecks : List ConstraintSet
  new_mlechecks : List (ConstraintSetEqIndPoint F)
  memoized_data : MemoizedData F
  deriving DecidableEq

/-- Modelled from the spec: `EvalcheckProver::new` gives a fresh state over a given
oracle set, with empty claim lists, queues, and cache. -/
def EvalcheckProver.new (F : Type) (oracles : OracleSet) : EvalcheckProver F :=
  { oracles := oracles, committed_eval_claims := [], new_bivariate_sumchecks := [],
    new_mlechecks := [], memoized_data := [] }

/-- Modelled from the spec: dispatch of one claim by the evalcheck prover.
A claim whose point length mismatches the oracle's `n_vars` is a hard error;
a committed-leaf claim is recorded directly; a virtual-node claim enqueues a
reduction constraint over the node's children on the corresponding queue. -/
def EvalcheckProver.proveClaim {F : Type} (s : EvalcheckProver F)
    (c : EvalcheckMultilinearClaim F) : Except DriverError (EvalcheckProver F) :=
  match s.oracles[c.oracle_id]? with
  | none => .error (.oracleNotFound c.oracle_id)
  | some entry =>
    if c.evaluation_point.length ≠ entry.n_vars then
      .error (.incorrectNumberOfVariables entry.n_vars)
    else
      match entry.variant with
      | .committed =>
        .ok { s with committed_eval_claims := s.committed_eval_claims ++ [c] }
      | .virtualBivariate inner =>
        .ok { s with new_bivariate_sumchecks :=
          s.new_bivariate_sumchecks ++ [{ oracle_ids := inner }] }
      | .virtualMlecheck inner =>
        .ok { s with new_mlechecks :=
          s.new_mlechecks ++ [{ eq_ind_challenges := c.evaluation_point,
                                constraint_set := { oracle_ids := inner } }] }

/-- Dispatch of a list of claims in order, stopping at the first error. -/
def EvalcheckProver.proveAll {F : Type} :
    EvalcheckProver F → List (EvalcheckMultilinearClaim F) →
      Except DriverError (EvalcheckProver F)
  | s, [] => .ok s
  | s, c :: rest =>
    match s.proveClaim c with
    | .error e => .error e
    | .ok s₂ => s₂.proveAll rest

/-- Modelled from the spec: `EvalcheckProver::prove(claims, transcript)`. -/
def EvalcheckProver.prove {F : Type} (s : EvalcheckProver F)
    (claims : List (EvalcheckMultilinearClaim F)) (t : Transcript F) :
    Except DriverError (EvalcheckProver F × Transcript F) :=
  match s.proveAll claims with
  | .error e => .error e
  | .ok s₂ => .ok (s₂, t)

/-- Modelled from the spec: drain and return the pending bivariate-sumcheck
queue. -/
def EvalcheckProver.take_new_bivariate_sumchecks_constraints {F : Type}
    (s : EvalcheckProver F) : List ConstraintSet × EvalcheckProver F :=
  (s.new_bivariate_sumchecks, { s with new_bivariate_sumchecks := [] })

/-- Modelled from the spec: drain and return the pending MLE-check queue. -/
def EvalcheckProver.take_new_mlechecks_constraints {F : Type}
    (s : EvalcheckProver F) : List (ConstraintSetEqIndPoint F) × EvalcheckProver F :=
  (s.new_mlechecks, { s with new_mlechecks := [] })

/-- The sumcheck engine's bivariate batch reduction
(`prove_bivariate_sumchecks_with_switchover`), consumed as an external
collaborator: it writes to the transcript and returns reduced claims. -/
abbrev ReduceBivariateSumchecks (F : Type) :=
  List ConstraintSet → Transcript F →
    Except DriverError (List (EvalcheckMultilinearClaim F) × Transcript F)

/-- The sumcheck engine's MLE-check reduction
(`prove_mlecheck_with_switchover`), consumed as an external collaborator: it
takes one constraint batch with its equality-indicator point and the shared
memoized data, and returns reduced claims with the updated data. -/
abbrev ReduceMlecheck (F : Type) :=
  ConstraintSet → List F → MemoizedData F → Transcript F →
    Except DriverError (List (EvalcheckMultilinearClaim F) × MemoizedData F × Transcript F)

/-- The driver's `for` loop over MLE-check units (prove.rs lines 116-132):
each unit is reduced individually, threading the memoized data and the
transcript, stopping at the first error. -/
def reduceMlechecks {F : Type} (rm : ReduceMlecheck F) :
    List (ConstraintSetEqIndPoint F) → MemoizedData F → Transcript F →
      Except DriverError (List (EvalcheckMultilinearClaim F) × MemoizedData F × Transcript F)
  | [], md, t => .ok ([], md, t)
  | u :: rest, md, t =>
    match rm u.constraint_set u.eq_ind_challenges md t with
    | .error e => .error e
    | .ok (claims, md₂, t₂) =>
      match reduceMlechecks rm rest md₂ t₂ with
      | .error e => .error e
      | .ok (claims₂, md₃, t₃) => .ok (claims ++ claims₂, md₃, t₃)

/-- One iteration of the driver's round loop (prove.rs lines 59-142): drain
both queues once, reduce the bivariate batch only when non-empty, reduce the
MLE-check units (guarded by non-emptiness in the source), break when no new
claims were produced, otherwise feed the claims back into the prover and
continue with `k`. -/
def greedyRound {F : Type} (rb : ReduceBivariateSumchecks F) (rm : ReduceMlecheck F)
    (k : EvalcheckProver F → Transcript F →
      Option (Except DriverError (EvalcheckProver F × Transcript F)))
    (s : EvalcheckProver F) (t : Transcript F) :
    Option (Except DriverError (EvalcheckProver F × Transcript F)) :=
  let taken₁ := s.take_new_bivariate_sumchecks_constraints
  let new_bivariate_sumchecks := taken₁.1
  let taken₂ := taken₁.2.take_new_mlechecks_constraints
  let new_mlechecks := taken₂.1
  let s₂ := taken₂.2
  let bivStep : Except DriverError (List (EvalcheckMultilinearClaim F) × Transcript F) :=
    if new_bivariate_sumchecks.isEmpty then .ok ([], t)
    else rb new_bivariate_sumchecks t
  match bivStep with
  | .error e => some (.error e)
  | .ok (claims₁, t₁) =>
    let mleStep : Except DriverError
        (List (EvalcheckMultilinearClaim F) × MemoizedData F × Transcript F) :=
      if new_mlechecks.isEmpty then .ok ([], s₂.memoized_data, t₁)
      else reduceMlechecks rm new_mlechecks s₂.memoized_data t₁
    match mleStep with
    | .error e => some (.error e)
    | .ok (claims₂, md, t₂) =>
      let s₃ := { s₂ with memoized_data := md }
      let new_evalcheck_claims := claims₁ ++ claims₂
      if new_evalcheck_claims.isEmpty then some (.ok (s₃, t₂))
      else
        match s₃.prove new_evalcheck_claims t₂ with
        | .error e => some (.error e)
        | .ok (s₄, t₃) => k s₄ t₃

/-- The driver's fixpoint loop (prove.rs lines 59-142), with the number of
iterations bounded by explicit fuel (`none` when the fuel runs out; claim C3
shows DAG depth + 1 iterations always suffice). -/
def greedyLoop {F : Type} (rb : ReduceBivariateSumchecks F) (rm : ReduceMlecheck F) :
    Nat → EvalcheckProver F → Transcript F →
      Option (Except DriverError (EvalcheckProver F × Transcript F))
  | 0, _, _ => none
  | fuel + 1, s, t =>
    greedyRound rb rm (fun s₄ t₃ => greedyLoop rb rm fuel s₄ t₃) s t

/-- Rust `GreedyEvalcheckProveOutput` (prove.rs lines 21-24). -/
structure GreedyEvalcheckProveOutput (F : Type) where
  eval_claims : List (EvalcheckMultilinearClaim F)
  memoized_data : MemoizedData F
  deriving DecidableEq

/-- Rust `greedy_evalcheck::prove` (prove.rs lines 27-153): prove the initial
claims, run the round loop to its fixpoint, then return the drained
committed-leaf claims together with the final memoized data. -/
def greedy_evalcheck_prove {F : Type} (oracles : OracleSet)
    (claims : List (EvalcheckMultilinearClaim F)) (rb : ReduceBivariateSumchecks F)
    (rm : ReduceMlecheck F) (fuel : Nat) (t : Transcript F) :
    Option (Except DriverError (GreedyEvalcheckProveOutput F × Transcript F)) :=
  let evalcheck_prover := EvalcheckProver.new F oracles
  match evalcheck_prover.prove claims t with
  | .error e => some (.error e)
  | .ok (s, t₁) =>
    match greedyLoop rb rm fuel s t₁ with
    | none => none
    | some (.error e) => some (.error e)
    | some (.ok (s₂, t₂)) =>
      some (.ok ({ eval_claims := s₂.committed_eval_claims,
                   memoized_data := s₂.memoized_data }, t₂))

/-- One round of the spec's fixpoint-loop pseudocode (spec §4.3), written from
the spec's words: take both queues, reduce the bivariate batch when non-empty,
reduce each MLE-check unit in order against the shared memoized data (no
emptiness guard), break when no new claims were produced, otherwise prove the
new claims and continue. -/
def specRound {F : Type} (rb : ReduceBivariateSumchecks F) (rm : ReduceMlecheck F)
    (k : EvalcheckProver F → Transcript F →
      Option (Except DriverError (EvalcheckProver F × Transcript F)))
    (s : EvalcheckProver F) (t : Transcript F) :
    Option (Except DriverError (EvalcheckProver F × Transcript F)) :=
  let taken₁ := s.take_new_bivariate_sumchecks_constraints
  let new_bivariate_sumchecks := taken₁.1
  let taken₂ := taken₁.2.take_new_mlechecks_constraints
  let new_mlechecks := taken₂.1
  let s₂ := taken₂.2
  let bivStep : Except DriverError (List (EvalcheckMultilinearClaim F) × Transcript F) :=
    if new_bivariate_sumchecks.isEmpty then .ok ([], t)
    else rb new_bivariate_sumchecks t
  match bivStep with
  | .error e => some (.error e)
  | .ok (claims₁, t₁) =>
    match reduceMlechecks rm new_mlechecks s₂.memoized_data t₁ with
    | .error e => some (.error e)
    | .ok (claims₂, md, t₂) =>
      let s₃ := { s₂ with memoized_data := md }
      let new_evalcheck_claims := claims₁ ++ claims₂
      if new_evalcheck_claims.isEmpty then some (.ok (s₃, t₂))
      else
        match s₃.prove new_evalcheck_claims t₂ with
        | .error e => some (.error e)
        | .ok (s₄, t₃) => k s₄ t₃

/-- The spec's fixpoint loop (spec §4.3), fuel-bounded like `greedyLoop`. -/
def specFixpointLoop {F : Type} (rb : ReduceBivariateSumchecks F)
    (rm : ReduceMlecheck F) :
    Nat → EvalcheckProver F → Transcript F →
      Option (Except DriverError (EvalcheckProver F × Transcript F))
  | 0, _, _ => none
  | fuel + 1, s, t =>
    specRound rb rm (fun s₄ t₃ => specFixpointLoop rb rm fuel s₄ t₃) s t

/-- The spec's driver algorithm (spec §4.3): prove the initial claims, loop to
the fixpoint, return the collected committed-leaf claims and the final
memoized data. -/
def spec_fixpoint_driver {F : Type} (oracles : OracleSet)
    (claims : List (EvalcheckMultilinearClaim F)) (rb : ReduceBivariateSumchecks F)
    (rm : ReduceMlecheck F) (fuel : Nat) (t : Transcript F) :
    Option (Except DriverError (GreedyEvalcheckProveOutput F × Transcript F)) :=
  let evalcheck_prover := EvalcheckProver.new F oracles
  match evalcheck_prover.prove claims t with
  | .error e => some (.error e)
  | .ok (s, t₁) =>
    match specFixpointLoop rb rm fuel s t₁ with
    | none => none
    | some (.error e) => some (.error e)
    | some (.ok (s₂, t₂)) =>
      some (.ok ({ eval_claims := s₂.committed_eval_claims,
                   memoized_data := s₂.memoized_data }, t₂))

theorem mle_guard_eq {F : Type} (rm : ReduceMlecheck F)
    (units : List (ConstraintSetEqIndPoint F)) (md : MemoizedData F) (t : Transcript F) :
    (if units.isEmpty then
        (.ok ([], md, t) : Except DriverError
          (List (EvalcheckMultilinearClaim F) × MemoizedData F × Transcript F))
      else reduceMlechecks rm units md t) = reduceMlechecks rm units md t := by
  cases units <;> simp [reduceMlechecks]

theorem greedyRound_eq_specRound {F : Type} (rb : ReduceBivariateSumchecks F)
    (rm : ReduceMlecheck F)
    (k : EvalcheckProver F → Transcript F →
      Option (Except DriverError (EvalcheckProver F × Transcript F)))
    (s : EvalcheckProver F) (t : Transcript F) :
    greedyRound rb rm k s t = specRound rb rm k s t := by
  unfold greedyRound specRound
  simp only [mle_guard_eq]

theorem greedyLoop_eq_specFixpointLoop {F : Type} (rb : ReduceBivariateSumchecks F)
    (rm : ReduceMlecheck F) :
    ∀ (fuel : Nat) (s : EvalcheckProver F) (t : Transcript F),
      greedyLoop rb rm fuel s t = specFixpointLoop rb rm fuel s t := by
  intro fuel
  induction fuel with
  | zero => intro s t; rfl
  | succ n ih =>
    intro s t
    show greedyRound rb rm _ s t = specRound rb rm _ s t
    rw [greedyRound_eq_specRound]
    have hk : (fun s₄ t₃ => greedyLoop rb rm n s₄ t₃) =
        fun s₄ t₃ => specFixpointLoop rb rm n s₄ t₃ :=
      funext fun s₄ => funext fun t₃ => ih s₄ t₃
    rw [hk]

/-- C5: the driver implementation refines the spec's fixpoint-loop pseudocode —
initial claims proved first, then each round drains both queues exactly once,
reduces the bivariate batch (only when non-empty) before any MLE-check unit,
reduces each MLE-check unit individually against the shared memoized data,
feeds all resulting claims back into `prove`, and stops when a round produces
no new claims.  The two drivers agree on every input; the only syntactic
difference is the source's redundant emptiness guard around the MLE-check
loop, a no-op. -/
theorem greedy_prove_refines_spec_pseudocode {F : Type} (oracles : OracleSet)
    (claims : List (EvalcheckMultilinearClaim F)) (rb : ReduceBivariateSumchecks F)
    (rm : ReduceMlecheck F) (fuel : Nat) (t : Transcript F) :
    greedy_evalcheck_prove oracles claims rb rm fuel t =
      spec_fixpoint_driver oracles claims rb rm fuel t := by
  unfold greedy_evalcheck_prove spec_fixpoint_driver
  simp only [greedyLoop_eq_specFixpointLoop]

/-- C7: draining empty constraint queues is not an error — when both pending
queues are empty, a loop iteration calls no reduction (the result does not
depend on the reduction functions at all), exits the loop normally, and
returns `Ok` with the state and transcript untouched. -/
theorem greedy_loop_empty_queues_fixpoint {F : Type} (s : EvalcheckProver F)
    (t : Transcript F) (fuel : Nat)
    (h₁ : s.new_bivariate_sumchecks = []) (h₂ : s.new_mlechecks = []) :
    ∀ (rb : ReduceBivariateSumchecks F) (rm : ReduceMlecheck F),
      greedyLoop rb rm (fuel + 1) s t = some (.ok (s, t)) := by
  intro rb rm
  cases s with
  | mk oracles committed bivs mles md =>
    simp only at h₁ h₂
    subst h₁
    subst h₂
    rfl

/-- Witness for C7: a state with empty queues over the naturals; one iteration
returns it unchanged with `Ok` for reduction functions that would fail if
called. -/
theorem greedy_loop_empty_queues_fixpoint_witness :
    greedyLoop (F := Nat) (fun _ _ => .error (.subproofFailure 0))
        (fun _ _ _ _ => .error (.subproofFailure 0)) 1
        ⟨[⟨0, .committed⟩], [⟨0, [], 7⟩], [], [], []⟩ [3] =
      some (.ok (⟨[⟨0, .committed⟩], [⟨0, [], 7⟩], [], [], []⟩, [3])) :=
  greedy_loop_empty_queues_fixpoint ⟨[⟨0, .committed⟩], [⟨0, [], 7⟩], [], [], []⟩
    [3] 0 rfl rfl _ _

/-- All listed claims target committed-leaf oracles of the given oracle set. -/
def committedClaimsOnly {F : Type} (oracles : OracleSet)
    (claims : List (EvalcheckMultilinearClaim F)) : Prop :=
  ∀ c ∈ claims, ∃ entry, oracles[c.oracle_id]? = some entry ∧
    entry.variant = OracleVariant.committed

theorem proveClaim_preserves {F : Type} {s s₂ : EvalcheckProver F}
    {c : EvalcheckMultilinearClaim F} (h : s.proveClaim c = .ok s₂) :
    s₂.oracles = s.oracles ∧
    (committedClaimsOnly s.oracles s.committed_eval_claims →
      committedClaimsOnly s.oracles s₂.committed_eval_claims) := by
  unfold EvalcheckProver.proveClaim at h
  cases ho : s.oracles[c.oracle_id]? with
  | none => rw [ho] at h; simp at h
  | some entry =>
    rw [ho] at h
    by_cases hl : c.evaluation_point.length = entry.n_vars
    · simp only [hl, ne_eq, not_true_eq_false, if_false, ite_false] at h
      cases hv : entry.variant with
      | committed =>
        rw [hv] at h
        cases h
        refine ⟨rfl, ?_⟩
        intro hc c₂ hc₂
        rcases List.mem_append.mp hc₂ with hmem | hmem
        · exact hc c₂ hmem
        · rcases List.mem_singleton.mp hmem with rfl
          exact ⟨entry, ho, hv⟩
      | virtualBivariate inner =>
        rw [hv] at h
        cases h
        exact ⟨rfl, fun hc => hc⟩
      | virtualMlecheck inner =>
        rw [hv] at h
        cases h
        exact ⟨rfl, fun hc => hc⟩
    · simp [hl] at h

theorem proveAll_preserves {F : Type} :
    ∀ (claims : List (EvalcheckMultilinearClaim F)) (s s₂ : EvalcheckProver F),
      s.proveAll claims = .ok s₂ →
      s₂.oracles = s.oracles ∧
      (committedClaimsOnly s.oracles s.committed_eval_claims →
        committedClaimsOnly s.oracles s₂.committed_eval_claims)
  | [], s, s₂, h => by
    unfold EvalcheckProver.proveAll at h
    cases h
    exact ⟨rfl, fun hc => hc⟩
  | c :: rest, s, s₂, h => by
    unfold EvalcheckProver.proveAll at h
    cases hstep : s.proveClaim c with
    | error e => rw [hstep] at h; simp at h
    | ok s₁ =>
      rw [hstep] at h
      have h₁ := proveClaim_preserves hstep
      have h₂ := proveAll_preserves rest s₁ s₂ h
      refine ⟨by rw [h₂.1, h₁.1], ?_⟩
      intro hc
      have := h₂.2
      rw [h₁.1] at this
      exact this (h₁.2 hc)

theorem prove_ok_elim {F : Type} {s s₂ : EvalcheckProver F}
    {claims : List (EvalcheckMultilinearClaim F)} {t t₂ : Transcript F}
    (h : s.prove claims t = .ok (s₂, t₂)) :
    s.proveAll claims = .ok s₂ ∧ t₂ = t := by
  unfold EvalcheckProver.prove at h
  cases hall : s.proveAll claims with
  | error e => rw [hall] at h; simp at h
  | ok s₃ =>
    rw [hall] at h
    simp only [Except.ok.injEq, Prod.mk.injEq] at h
    exact ⟨by rw [h.1], h.2.symm⟩

theorem greedyLoop_preserves {F : Type} (rb : ReduceBivariateSumchecks F)
    (rm : ReduceMlecheck F) :
    ∀ (fuel : Nat) (s : EvalcheckProver F) (t : Transcript F)
      (s₂ : EvalcheckProver F) (t₂ : Transcript F),
      greedyLoop rb rm fuel s t = some (.ok (s₂, t₂)) →
      s₂.oracles = s.oracles ∧
      (committedClaimsOnly s.oracles s.committed_eval_claims →
        committedClaimsOnly s.oracles s₂.committed_eval_claims) := by
  intro fuel
  induction fuel with
  | zero => intro s t s₂ t₂ h; simp [greedyLoop] at h
  | succ fuel ih =>
    intro s t s₂ t₂ h
    simp only [greedyLoop, greedyRound,
      EvalcheckProver.take_new_bivariate_sumchecks_constraints,
      EvalcheckProver.take_new_mlechecks_constraints] at h
    split at h
    · simp at h
    · rename_i claims₁ t₁ hbiv
      split at h
      · simp at h
      · rename_i claims₂ md t₂a hmle
        split at h
        · simp only [Option.some.injEq, Except.ok.injEq, Prod.mk.injEq] at h
          obtain ⟨hs, ht⟩ := h.1, h.2
          cases hs
          exact ⟨rfl, fun hc => hc⟩
        · split at h
          · simp at h
          · rename_i s₄ t₃ hprove
            have hp := prove_ok_elim hprove
            have h₁ := proveAll_preserves _ _ _ hp.1
            have h₂ := ih _ _ _ _ h
            refine ⟨by rw [h₂.1, h₁.1], ?_⟩
            intro hc
            have hinv₄ := h₁.2 hc
            have := h₂.2
            rw [h₁.1] at this
            exact this hinv₄

/-- C2: when the greedy evalcheck driver returns `Ok`, its `eval_claims`
output is exactly the list of committed-leaf evaluation claims accumulated by
the evalcheck prover across all rounds — every output claim targets a
committed oracle, so no virtual-oracle claim appears — and the output also
carries the prover's final memoized data. -/
theorem greedy_prove_output_committed_claims {F : Type} (oracles : OracleSet)
    (claims : List (EvalcheckMultilinearClaim F)) (rb : ReduceBivariateSumchecks F)
    (rm : ReduceMlecheck F) (fuel : Nat) (t : Transcript F)
    (out : GreedyEvalcheckProveOutput F) (t₂ : Transcript F)
    (h : greedy_evalcheck_prove oracles claims rb rm fuel t = some (.ok (out, t₂))) :
    committedClaimsOnly oracles out.eval_claims ∧
    ∃ (s₁ : EvalcheckProver F) (t₁ : Transcript F) (sFin : EvalcheckProver F),
      (EvalcheckProver.new F oracles).prove claims t = .ok (s₁, t₁) ∧
      greedyLoop rb rm fuel s₁ t₁ = some (.ok (sFin, t₂)) ∧
      out.eval_claims = sFin.committed_eval_claims ∧
      out.memoized_data = sFin.memoized_data := by
  simp only [greedy_evalcheck_prove] at h
  split at h
  · simp at h
  · rename_i s₁ t₁ hinit
    split at h
    · simp at h
    · simp at h
    · rename_i sFin tFin hloop
      simp only [Option.some.injEq, Except.ok.injEq, Prod.mk.injEq] at h
      obtain ⟨hout, htFin⟩ := h
      subst hout
      subst htFin
      have hp := prove_ok_elim hinit
      have hnew₁ := proveAll_preserves _ _ _ hp.1
      have hor₁ : s₁.oracles = oracles := hnew₁.1
      have hinv₁ : committedClaimsOnly oracles s₁.committed_eval_claims := by
        have := hnew₁.2
        simp only [EvalcheckProver.new] at this
        exact this (fun c hc => by simp at hc)
      have hloopinv := greedyLoop_preserves rb rm fuel s₁ t₁ sFin tFin hloop
      have hinvFin : committedClaimsOnly oracles sFin.committed_eval_claims := by
        have := hloopinv.2
        rw [hor₁] at this
        exact this hinv₁
      exact ⟨hinvFin, s₁, t₁, sFin, hinit, hloop, rfl, rfl⟩

/-- Witness for C2: a single committed oracle with zero variables, one initial
claim on it, and reduction functions that are never reached; the driver
returns exactly that claim, which targets the committed leaf. -/
theorem greedy_prove_output_committed_claims_witness :
    committedClaimsOnly (F := Nat) [⟨0, .committed⟩] [⟨0, [], 5⟩] ∧
    ∃ (s₁ : EvalcheckProver Nat) (t₁ : Transcript Nat) (sFin : EvalcheckProver Nat),
      (EvalcheckProver.new Nat [⟨0, .committed⟩]).prove [⟨0, [], 5⟩] [] = .ok (s₁, t₁) ∧
      greedyLoop (fun _ t => .ok ([], t)) (fun _ _ md t => .ok ([], md, t)) 1 s₁ t₁ =
        some (.ok (sFin, [])) ∧
      ([⟨0, [], 5⟩] : List (EvalcheckMultilinearClaim Nat)) = sFin.committed_eval_claims ∧
      ([] : MemoizedData Nat) = sFin.memoized_data :=
  greedy_prove_output_committed_claims [⟨0, .committed⟩] [⟨0, [], 5⟩]
    (fun _ t => .ok ([], t)) (fun _ _ md t => .ok ([], md, t)) 1 []
    ⟨[⟨0, [], 5⟩], []⟩ [] rfl

/-- The spec's contract for the bivariate sumcheck reduction: the reduced
evaluation claims it returns are on the constituent oracles of the constraint
batches it was given. -/
def reduceBivOnConstituents {F : Type} (rb : ReduceBivariateSumchecks F) : Prop :=
  ∀ (css : List ConstraintSet) (t : Transcript F)
    (claims : List (EvalcheckMultilinearClaim F)) (t₂ : Transcript F),
    rb css t = .ok (claims, t₂) →
    ∀ c ∈ claims, ∃ cs ∈ css, c.oracle_id ∈ cs.oracle_ids

/-- The spec's contract for the MLE-check reduction: the reduced evaluation
claims it returns are on the constituent oracles of the constraint batch it
was given. -/
def reduceMleOnConstituents {F : Type} (rm : ReduceMlecheck F) : Prop :=
  ∀ (cs : ConstraintSet) (point : List F) (md : MemoizedData F) (t : Transcript F)
    (claims : List (EvalcheckMultilinearClaim F)) (md₂ : MemoizedData F) (t₂ : Transcript F),
    rm cs point md t = .ok (claims, md₂, t₂) →
    ∀ c ∈ claims, c.oracle_id ∈ cs.oracle_ids

theorem reduceMlechecks_constituents {F : Type} {rm : ReduceMlecheck F}
    (hrm : reduceMleOnConstituents rm) :
    ∀ (units : List (ConstraintSetEqIndPoint F)) (md : MemoizedData F)
      (t : Transcript F) (claims : List (EvalcheckMultilinearClaim F))
      (md₂ : MemoizedData F) (t₂ : Transcript F),
      reduceMlechecks rm units md t = .ok (claims, md₂, t₂) →
      ∀ c ∈ claims, ∃ u ∈ units, c.oracle_id ∈ u.constraint_set.oracle_ids
  | [], md, t, claims, md₂, t₂, h => by
    unfold reduceMlechecks at h
    simp only [Except.ok.injEq, Prod.mk.injEq] at h
    intro c hc
    rw [← h.1] at hc
    simp at hc
  | u :: rest, md, t, claims, md₂, t₂, h => by
    unfold reduceMlechecks at h
    split at h
    · simp at h
    · rename_i cl₁ md₁ t₁ h₁
      split at h
      · simp at h
      · rename_i cl₂ mdr tr h₂
        simp only [Except.ok.injEq, Prod.mk.injEq] at h
        intro c hc
        rw [← h.1] at hc
        rcases List.mem_append.mp hc with hmem | hmem
        · exact ⟨u, List.mem_cons_self u rest, hrm _ _ _ _ _ _ _ h₁ c hmem⟩
        · obtain ⟨u₂, hu₂, hid⟩ :=
            reduceMlechecks_constituents hrm rest md₁ t₁ cl₂ mdr tr h₂ c hmem
          exact ⟨u₂, List.mem_cons_of_mem u hu₂, hid⟩

/-- Every constituent oracle handle referenced by a pending constraint of
either queue has depth below `m`. -/
def pendingBound {F : Type} (depth : OracleId → Nat) (m : Nat)
    (s : EvalcheckProver F) : Prop :=
  (∀ cs ∈ s.new_bivariate_sumchecks, ∀ i ∈ cs.oracle_ids, depth i < m) ∧
  (∀ u ∈ s.new_mlechecks, ∀ i ∈ u.constraint_set.oracle_ids, depth i < m)

/-- Acyclicity of the oracle DAG, witnessed by a depth measure: every child
of a virtual node is strictly shallower than the node itself. -/
def oracleDepthOk (oracles : OracleSet) (depth : OracleId → Nat) : Prop :=
  ∀ (i : OracleId) (entry : OracleEntry), oracles[i]? = some entry →
    ∀ j ∈ entry.variant.innerIds, depth j < depth i

theorem proveClaim_pendingBound {F : Type} {oracles : OracleSet}
    {depth : OracleId → Nat} {k : Nat} {s s₂ : EvalcheckProver F}
    {c : EvalcheckMultilinearClaim F}
    (hor : s.oracles = oracles) (hdag : oracleDepthOk oracles depth)
    (hb : pendingBound depth k s) (hc : depth c.oracle_id ≤ k)
    (h : s.proveClaim c = .ok s₂) :
    pendingBound depth k s₂ := by
  unfold EvalcheckProver.proveClaim at h
  cases ho : s.oracles[c.oracle_id]? with
  | none => rw [ho] at h; simp at h
  | some entry =>
    rw [ho] at h
    by_cases hl : c.evaluation_point.length = entry.n_vars
    · simp only [hl, ne_eq, not_true_eq_false, if_false, ite_false] at h
      have hinner : ∀ j ∈ entry.variant.innerIds, depth j < depth c.oracle_id := by
        apply hdag c.oracle_id entry
        rw [← hor]
        exact ho
      cases hv : entry.variant with
      | committed =>
        rw [hv] at h
        cases h
        exact hb
      | virtualBivariate inner =>
        rw [hv] at h
        cases h
        refine ⟨?_, hb.2⟩
        intro cs hcs i hi
        rcases List.mem_append.mp hcs with hmem | hmem
        · exact hb.1 cs hmem i hi
        · rcases List.mem_singleton.mp hmem with rfl
          have hj : i ∈ entry.variant.innerIds := by
            rw [hv]
            simpa [OracleVariant.innerIds] using hi
          have := hinner i hj
          omega
      | virtualMlecheck inner =>
        rw [hv] at h
        cases h
        refine ⟨hb.1, ?_⟩
        intro u hu i hi
        rcases List.mem_append.mp hu with hmem | hmem
        · exact hb.2 u hmem i hi
        · rcases List.mem_singleton.mp hmem with rfl
          have hj : i ∈ entry.variant.innerIds := by
            rw [hv]
            simpa [OracleVariant.innerIds] using hi
          have := hinner i hj
          omega
    · simp [hl] at h

theorem proveAll_pendingBound {F : Type} {oracles : OracleSet}
    {depth : OracleId → Nat} {k : Nat} :
    ∀ (claims : List (EvalcheckMultilinearClaim F)) (s s₂ : EvalcheckProver F),
      s.oracles = oracles → oracleDepthOk oracles depth →
      pendingBound depth k s → (∀ c ∈ claims, depth c.oracle_id ≤ k) →
      s.proveAll claims = .ok s₂ → pendingBound depth k s₂
  | [], s, s₂, _, _, hb, _, h => by
    unfold EvalcheckProver.proveAll at h
    cases h
    exact hb
  | c :: rest, s, s₂, hor, hdag, hb, hcl, h => by
    unfold EvalcheckProver.proveAll at h
    cases hstep : s.proveClaim c with
    | error e => rw [hstep] at h; simp at h
    | ok s₁ =>
      rw [hstep] at h
      have hb₁ := proveClaim_pendingBound hor hdag hb
        (hcl c (List.mem_cons_self c rest)) hstep
      have hor₁ : s₁.oracles = oracles := by
        rw [(proveClaim_preserves hstep).1, hor]
      exact proveAll_pendingBound rest s₁ s₂ hor₁ hdag hb₁
        (fun c₂ hc₂ => hcl c₂ (List.mem_cons_of_mem c hc₂)) h

theorem greedyLoop_no_fuel_exhaustion {F : Type} (rb : ReduceBivariateSumchecks F)
    (rm : ReduceMlecheck F) (oracles : OracleSet) (depth : OracleId → Nat)
    (hrb : reduceBivOnConstituents rb) (hrm : reduceMleOnConstituents rm)
    (hdag : oracleDepthOk oracles depth) :
    ∀ (fuel m : Nat) (s : EvalcheckProver F) (t : Transcript F),
      s.oracles = oracles → pendingBound depth m s → m < fuel →
      greedyLoop rb rm fuel s t ≠ none := by
  intro fuel
  induction fuel with
  | zero => intro m s t _ _ hm; exact absurd hm (Nat.not_lt_zero m)
  | succ fuel ih =>
    intro m s t hor hb hm h
    simp only [greedyLoop, greedyRound,
      EvalcheckProver.take_new_bivariate_sumchecks_constraints,
      EvalcheckProver.take_new_mlechecks_constraints] at h
    split at h
    · simp at h
    · rename_i claims₁ t₁ hbiv
      split at h
      · simp at h
      · rename_i claims₂ md t₂ hmle
        split at h
        · simp at h
        · rename_i hne
          split at h
          · simp at h
          · rename_i s₄ t₃ hprove
            have hcl₁ : ∀ c ∈ claims₁, depth c.oracle_id < m := by
              intro c hc
              by_cases hbe : s.new_bivariate_sumchecks.isEmpty
              · rw [if_pos hbe] at hbiv
                simp only [Except.ok.injEq, Prod.mk.injEq] at hbiv
                rw [← hbiv.1] at hc
                simp at hc
              · rw [if_neg hbe] at hbiv
                obtain ⟨cs, hcs, hid⟩ := hrb _ _ _ _ hbiv c hc
                exact hb.1 cs hcs _ hid
            have hcl₂ : ∀ c ∈ claims₂, depth c.oracle_id < m := by
              intro c hc
              by_cases hme : s.new_mlechecks.isEmpty
              · rw [if_pos hme] at hmle
                simp only [Except.ok.injEq, Prod.mk.injEq] at hmle
                rw [← hmle.1] at hc
                simp at hc
              · rw [if_neg hme] at hmle
                obtain ⟨u, hu, hid⟩ :=
                  reduceMlechecks_constituents hrm _ _ _ _ _ _ hmle c hc
                exact hb.2 u hu _ hid
            have hall : ∀ c ∈ claims₁ ++ claims₂, depth c.oracle_id < m := by
              intro c hc
              rcases List.mem_append.mp hc with hmem | hmem
              · exact hcl₁ c hmem
              · exact hcl₂ c hmem
            have hm1 : 1 ≤ m := by
              cases hcc : claims₁ ++ claims₂ with
              | nil => rw [hcc] at hne; simp at hne
              | cons c cs =>
                have := hall c (by rw [hcc]; exact List.mem_cons_self c cs)
                omega
            have hp := prove_ok_elim hprove
            have hor₄ : s₄.oracles = oracles := by
              rw [(proveAll_preserves _ _ _ hp.1).1]
              simpa using hor
            have hb₄ : pendingBound depth (m - 1) s₄ := by
              refine proveAll_pendingBound _ _ _ ?_ hdag ?_ ?_ hp.1
              · simpa using hor
              · constructor <;> simp
              · intro c hc
                have := hall c hc
                omega
            exact ih (m - 1) s₄ t₃ hor₄ hb₄ (by omega) h

/-- C3: for a finite acyclic oracle DAG whose depth measure is bounded by `d`
on the initial claims, and sumcheck reductions that (per their contract) only
return claims on the constituent oracles of the constraints they are handed,
the greedy evalcheck driver's fixpoint loop terminates: `d + 1` loop
iterations always suffice (at most `d` reducing rounds followed by the final
empty-queue fixpoint check), because each round strictly moves claims one
level down the DAG toward leaves. -/
theorem greedy_prove_terminates_within_depth {F : Type} (oracles : OracleSet)
    (depth : OracleId → Nat) (D : Nat) (claims : List (EvalcheckMultilinearClaim F))
    (rb : ReduceBivariateSumchecks F) (rm : ReduceMlecheck F) (t : Transcript F)
    (hdag : oracleDepthOk oracles depth)
    (hclaims : ∀ c ∈ claims, depth c.oracle_id ≤ D)
    (hrb : reduceBivOnConstituents rb) (hrm : reduceMleOnConstituents rm) :
    greedy_evalcheck_prove oracles claims rb rm (D + 1) t ≠ none := by
  intro h
  simp only [greedy_evalcheck_prove] at h
  split at h
  · simp at h
  · rename_i s₁ t₁ hinit
    split at h
    · rename_i hloopNone
      have hp := prove_ok_elim hinit
      have hor₁ : s₁.oracles = oracles := by
        rw [(proveAll_preserves _ _ _ hp.1).1]
        rfl
      have hb₁ : pendingBound depth D s₁ := by
        refine proveAll_pendingBound _ _ _ rfl hdag ?_ hclaims hp.1
        constructor <;> simp [EvalcheckProver.new]
      exact greedyLoop_no_fuel_exhaustion rb rm oracles depth hrb hrm hdag
        (D + 1) D s₁ t₁ hor₁ hb₁ (Nat.lt_succ_self D) hloopNone
    · simp at h
    · simp at h

/-- Witness for C3: a single committed oracle at depth 0 with one initial
claim on it, and reduction functions that always fail (vacuously satisfying
the constituent contracts); one productive-round bound of 0 plus the fixpoint
check ends the loop. -/
theorem greedy_prove_terminates_within_depth_witness :
    greedy_evalcheck_prove (F := Nat) [⟨0, .committed⟩] [⟨0, [], 9⟩]
        (fun _ _ => .error (.subproofFailure 0))
        (fun _ _ _ _ => .error (.subproofFailure 0)) 1 [] ≠ none :=
  greedy_prove_terminates_within_depth [⟨0, .committed⟩] (fun _ => 0) 0
    [⟨0, [], 9⟩] (fun _ _ => .error (.subproofFailure 0))
    (fun _ _ _ _ => .error (.subproofFailure 0)) []
    (by
      intro i entry hentry j hj
      cases i with
      | zero =>
        simp only [List.getElem?_cons_zero, Option.some.injEq] at hentry
        rw [← hentry] at hj
        simp [OracleVariant.innerIds] at hj
      | succ n => simp at hentry)
    (by intro c hc; exact Nat.le_refl 0)
    (by intro css t claims t₂ hok; simp at hok)
    (by intro cs point md t claims md₂ t₂ hok; simp at hok)

theorem greedyRound_error_propagation {F : Type} (rb : ReduceBivariateSumchecks F)
    (rm : ReduceMlecheck F)
    (k : EvalcheckProver F → Transcript F →
      Option (Except DriverError (EvalcheckProver F × Transcript F)))
    (s : EvalcheckProver F) (t : Transcript F) (e : DriverError)
    (h : (s.new_bivariate_sumchecks ≠ [] ∧ rb s.new_bivariate_sumchecks t = .error e)
       ∨ (s.new_bivariate_sumchecks = [] ∧
           reduceMlechecks rm s.new_mlechecks s.memoized_data t = .error e)
       ∨ (s.new_bivariate_sumchecks = [] ∧ ∃ cl md t₂,
           reduceMlechecks rm s.new_mlechecks s.memoized_data t = .ok (cl, md, t₂) ∧
           cl ≠ [] ∧
           ({ s with new_bivariate_sumchecks := [], new_mlechecks := [], memoized_data := md } : EvalcheckProver F).prove cl t₂ = .error e)) :
    greedyRound rb rm k s t = some (.error e) := by
  obtain ⟨sor, scomm, sbivs, smles, smd⟩ := s
  rcases h with ⟨hne, herr⟩ | ⟨hemp, herr⟩ | ⟨hemp, cl, md, t₂, hok, hclne, hperr⟩
  · simp only at hne herr
    cases sbivs with
    | nil => exact absurd rfl hne
    | cons b bs =>
      simp only [greedyRound, EvalcheckProver.take_new_bivariate_sumchecks_constraints,
        EvalcheckProver.take_new_mlechecks_constraints, List.isEmpty_cons,
        Bool.false_eq_true, if_false, herr]
  · simp only at hemp herr
    subst hemp
    cases smles with
    | nil => simp [reduceMlechecks] at herr
    | cons u us =>
      simp only [greedyRound, EvalcheckProver.take_new_bivariate_sumchecks_constraints,
        EvalcheckProver.take_new_mlechecks_constraints, List.isEmpty_nil, if_true,
        List.isEmpty_cons, Bool.false_eq_true, if_false, herr]
  · simp only at hemp hok hclne hperr
    subst hemp
    cases smles with
    | nil =>
      simp only [reduceMlechecks, Except.ok.injEq, Prod.mk.injEq] at hok
      exact absurd hok.1.symm hclne
    | cons u us =>
      cases cl with
      | nil => exact absurd rfl hclne
      | cons c cs =>
        simp only [greedyRound, EvalcheckProver.take_new_bivariate_sumchecks_constraints,
          EvalcheckProver.take_new_mlechecks_constraints, List.isEmpty_nil, if_true,
          List.isEmpty_cons, Bool.false_eq_true, if_false, hok, List.nil_append, hperr]

/-- C6: any error returned by a sub-proof reduction
(`prove_bivariate_sumchecks_with_switchover` on a non-empty bivariate batch,
or `prove_mlecheck_with_switchover` inside the MLE-check loop) or by the
evalcheck prover's `prove` is propagated upward by the driver unchanged: the
driver returns exactly that `Err`, regardless of the remaining fuel —
performing no further rounds and making no recovery or retry attempt. -/
theorem greedy_prove_propagates_errors {F : Type} (oracles : OracleSet)
    (claims : List (EvalcheckMultilinearClaim F)) (rb : ReduceBivariateSumchecks F)
    (rm : ReduceMlecheck F) (fuel : Nat) (t : Transcript F) (e : DriverError)
    (h : (EvalcheckProver.new F oracles).prove claims t = .error e
       ∨ ∃ (s₁ : EvalcheckProver F) (t₁ : Transcript F),
           (EvalcheckProver.new F oracles).prove claims t = .ok (s₁, t₁) ∧
           ((s₁.new_bivariate_sumchecks ≠ [] ∧
               rb s₁.new_bivariate_sumchecks t₁ = .error e)
            ∨ (s₁.new_bivariate_sumchecks = [] ∧
                reduceMlechecks rm s₁.new_mlechecks s₁.memoized_data t₁ = .error e)
            ∨ (s₁.new_bivariate_sumchecks = [] ∧ ∃ cl md t₂,
                reduceMlechecks rm s₁.new_mlechecks s₁.memoized_data t₁ =
                  .ok (cl, md, t₂) ∧
                cl ≠ [] ∧
                ({ s₁ with new_bivariate_sumchecks := [], new_mlechecks := [], memoized_data := md } : EvalcheckProver F).prove cl t₂ =
                  .error e))) :
    greedy_evalcheck_prove oracles claims rb rm (fuel + 1) t = some (.error e) := by
  simp only [greedy_evalcheck_prove]
  rcases h with herr | ⟨s₁, t₁, hok, hsc⟩
  · rw [herr]
  · have hl : greedyLoop rb rm (fuel + 1) s₁ t₁ = some (.error e) := by
      show greedyRound rb rm _ s₁ t₁ = some (.error e)
      exact greedyRound_error_propagation rb rm _ s₁ t₁ e hsc
    simp only [hok, hl]

/-- Witness for C6: a claim on an oracle handle missing from an empty oracle
set makes the evalcheck prover's initial `prove` fail; the driver returns that
exact error. -/
theorem greedy_prove_propagates_errors_witness :
    greedy_evalcheck_prove (F := Nat) [] [⟨0, [], 0⟩]
        (fun _ t => .ok ([], t)) (fun _ _ md t => .ok ([], md, t)) 1 [] =
      some (.error (.oracleNotFound 0)) :=
  greedy_prove_propagates_errors [] [⟨0, [], 0⟩] (fun _ t => .ok ([], t))
    (fun _ _ md t => .ok ([], md, t)) 0 [] (.oracleNotFound 0) (.inl rfl)

end Binius
